import Mathlib

/-!
Verification of the asteroids game core (ship / bullets / asteroids / game
orchestrator / audio voice pool) against its natural-language specification.

The JavaScript sources are embedded shallowly:

* positions, velocities, timers and scores are exact rationals (`ℚ`) or
  naturals; the few places where the source evaluates trigonometric
  functions on randomised angles (asteroid split velocities) are embedded
  over `ℝ` in the `Astro` namespace;
* the circle-overlap test `dist < r1 + r2` is embedded in the squared form
  `dist² < (r1+r2)²`, which is equivalent for nonnegative radii and keeps
  the predicate decidable;
* `setTimeout` becomes an explicit pending-timer list on the game state
  (the source stores a cancellation handle only for `gameOverTimer`, and
  the embedding stores exactly what the source stores);
* calls into the audio manager are recorded in an event log `sounds`
  (most recent first), so that "a cue was triggered" is an inspectable
  fact of the state;
* `Math.random()` draws are taken as explicit parameters (the `Cfg`
  record at game level, the `u` arguments of the split constructor), and
  theorems quantify over them.
-/

namespace Asteroids

/-- Asteroid size tiers (`'large' | 'medium' | 'small'` in the source). -/
inductive Size where
  | large
  | medium
  | small
deriving DecidableEq, Repr

/-- Radius per tier, from the `radii` table of the `Asteroid` constructor. -/
def radiusOf : Size → ℚ
  | .large => 40
  | .medium => 20
  | .small => 10

/-- Score per destroyed tier, from the `scores` table of
`Game.handleAsteroidDestruction`. -/
def scoreOf : Size → ℕ
  | .large => 20
  | .medium => 50
  | .small => 100

/-- `checkCollision` from `collision.js`: two circles overlap iff the
distance between their centers is below the sum of the radii.  The source
compares `Math.sqrt(dx*dx+dy*dy) < r1+r2`; for nonnegative radii this is
equivalent to the squared comparison used here, which keeps the test
decidable over `ℚ`. -/
def checkCollision (x1 y1 r1 x2 y2 r2 : ℚ) : Prop :=
  (x1 - x2) ^ 2 + (y1 - y2) ^ 2 < (r1 + r2) ^ 2

instance (x1 y1 r1 x2 y2 r2 : ℚ) : Decidable (checkCollision x1 y1 r1 x2 y2 r2) := by
  unfold checkCollision
  infer_instance

/-- `BULLET_MAX_DISTANCE` from `bullet.js`. -/
def BULLET_MAX_DISTANCE : ℚ := 0.95

/-- The state of a `Bullet` (`bullet.js`): position, velocity, the
accumulated wrapped travel distance and the death flag. -/
structure Bullet where
  x : ℚ
  y : ℚ
  vx : ℚ
  vy : ℚ
  distanceTraveled : ℚ
  isDead : Bool
deriving DecidableEq, Repr

/-- One axis of `Bullet.update`: given the pre-move coordinate `prev`, the
post-move coordinate `next` and the bound, returns the pair
(distance added, wrapped coordinate).  Mirrors the source's
`if (x < 0) ... else if (x > width) ... else ...` chain, which is written
out once per axis. -/
def bulletAxis (prev next bound : ℚ) : ℚ × ℚ :=
  if next < 0 then (prev, bound)
  else if next > bound then (bound - prev, 0)
  else (|next - prev|, next)

/-- `Bullet.update(deltaTime, width, height)` from `bullet.js`: advance by
velocity, wrap with pre-wrap distance accounting per axis, then expire the
bullet once the accumulated distance reaches
`min(width, height) * BULLET_MAX_DISTANCE`. -/
def Bullet.update (b : Bullet) (dt w h : ℚ) : Bullet :=
  let nx := b.x + b.vx * dt
  let ny := b.y + b.vy * dt
  let ax := bulletAxis b.x nx w
  let ay := bulletAxis b.y ny h
  let dist := b.distanceTraveled + ax.1 + ay.1
  { x := ax.2, y := ay.2, vx := b.vx, vy := b.vy,
    distanceTraveled := dist,
    isDead := if dist ≥ min w h * BULLET_MAX_DISTANCE then true else b.isDead }

/-- `Ship.wrapAroundScreen` (`ship.js`), one axis: two sequential `if`s,
hard-edge wrap on `[0, bound]`, radius unused. -/
def shipWrapAxis (p bound : ℚ) : ℚ :=
  let p1 := if p < 0 then bound else p
  if p1 > bound then 0 else p1

/-- `Game.wrapObject` (`game.js`), one axis: two sequential `if`s,
hard-edge wrap on `[0, bound]`, applied by the game loop to the ship, all
bullets and all asteroids after their updates. -/
def wrapObjectAxis (p bound : ℚ) : ℚ :=
  let p1 := if p < 0 then bound else p
  if p1 > bound then 0 else p1

/-- The wrap used inside `Asteroid.update` (`asteroid.js`), one axis: two
sequential `if`s on the radius-inflated interval `[-radius, bound+radius]`. -/
def asteroidWrapAxis (p r bound : ℚ) : ℚ :=
  let p1 := if p < -r then bound + r else p
  if p1 > bound + r then -r else p1

/-- Modelled from the spec: wrap policy (a), "hard-edge wrap at `[0, width]`
using the object's raw coordinate". -/
def hardEdgeWrap (p bound : ℚ) : ℚ :=
  if p < 0 then bound else if p > bound then 0 else p

/-- Modelled from the spec: wrap policy (b), "radius-inflated wrap at
`[-radius, width+radius]`". -/
def inflatedWrap (p r bound : ℚ) : ℚ :=
  if p < -r then bound + r else if p > bound + r then -r else p

/-- `SHOOT_DELAY` from `ship.js` (0.20 seconds). -/
def SHOOT_DELAY : ℚ := 0.20

/-- `BULLET_SPEED` from `ship.js`. -/
def BULLET_SPEED : ℚ := 500

/-- `INVULNERABILITY_TIME` from `ship.js`. -/
def INVULNERABILITY_TIME : ℚ := 2

/-- The `Ship` state (`ship.js`).  The disintegration fragment geometry is
a pure rendering effect and is not carried; every field read by the game
logic is. -/
structure Ship where
  x : ℚ
  y : ℚ
  angle : ℚ
  vx : ℚ
  vy : ℚ
  thrust : Bool
  radius : ℚ
  visible : Bool
  isInvulnerable : Bool
  invulnerabilityTimer : ℚ
  shootTimer : ℚ
  isDisintegrating : Bool
  disintegrationTimer : ℚ
  respawnTimer : ℚ
  /-- flag set by the `setGameOver` calls in `game.js`; the method body is
  not present under `src/` (it belongs to a ship file missing from the
  snapshot) and is modelled from its call sites as a plain flag write. -/
  gameOverFlag : Bool
deriving DecidableEq, Repr

/-- The `Ship` constructor state (`new Ship(x, y, canvas)`). -/
def Ship.mk0 (x y : ℚ) : Ship :=
  { x := x, y := y, angle := 0, vx := 0, vy := 0, thrust := false,
    radius := 15, visible := true,
    isInvulnerable := false, invulnerabilityTimer := 0, shootTimer := 0,
    isDisintegrating := false, disintegrationTimer := 0, respawnTimer := 0,
    gameOverFlag := false }

/-- `Ship.updateTimers(deltaTime)` from `ship.js`: the shoot cooldown is
decremented while positive; the invulnerability timer counts down and
clears the flag at zero. -/
def Ship.updateTimers (s : Ship) (dt : ℚ) : Ship :=
  let s1 := if 0 < s.shootTimer then { s with shootTimer := s.shootTimer - dt } else s
  if s1.isInvulnerable then
    let t := s1.invulnerabilityTimer - dt
    if t ≤ 0 then { s1 with isInvulnerable := false, invulnerabilityTimer := 0 }
    else { s1 with invulnerabilityTimer := t }
  else s1

/-- `Ship.shoot()` from `ship.js`.  A bullet is produced only when the
cooldown has elapsed and the ship is neither disintegrating nor invisible;
on success the cooldown is reset to `SHOOT_DELAY`.  The source evaluates
`Math.cos(this.angle)` and `Math.sin(this.angle)`; those two real values
are passed in as the parameters `cosA` and `sinA`, and the theorems
quantify over them. -/
def Ship.shoot (s : Ship) (cosA sinA : ℚ) : Option Bullet × Ship :=
  if s.shootTimer ≤ 0 ∧ s.isDisintegrating = false ∧ s.visible = true then
    (some { x := s.x + cosA * s.radius, y := s.y + sinA * s.radius,
            vx := cosA * BULLET_SPEED, vy := sinA * BULLET_SPEED,
            distanceTraveled := 0, isDead := false },
     { s with shootTimer := SHOOT_DELAY })
  else (none, s)

/-- `Ship.startDisintegration()` from `ship.js`: marks the ship
disintegrating and invulnerable, zeroes motion and thrust.  The randomized
fragment pieces it also builds are rendering-only and not carried. -/
def Ship.startDisintegration (s : Ship) : Ship :=
  { s with isDisintegrating := true, disintegrationTimer := 0,
           respawnTimer := 0,
           isInvulnerable := true, invulnerabilityTimer := INVULNERABILITY_TIME,
           thrust := false, vx := 0, vy := 0 }

/-- `Ship.reset(x, y)` from `ship.js`. -/
def Ship.resetTo (s : Ship) (x y : ℚ) : Ship :=
  { s with x := x, y := y, angle := 0, vx := 0, vy := 0, thrust := false,
           isInvulnerable := true, invulnerabilityTimer := INVULNERABILITY_TIME,
           isDisintegrating := false, disintegrationTimer := 0, visible := true }

/-! ## The game orchestrator (`game.js`)

Game constants (`GAME_SETTINGS`): `INITIAL_LIVES = 3`,
`EXTRA_LIFE_SCORE = 10000`, `BASE_ASTEROIDS = 3`,
`DEFAULT_HIGH_SCORE = 7500`, `GAME_OVER_DELAY = 3000`,
`WAVE_CREATION_DELAY = 3000`, `BACKGROUND_BEAT_DELAY = 500`. -/

/-- `EXTRA_LIFE_SCORE` from `GAME_SETTINGS`. -/
def EXTRA_LIFE_SCORE : ℕ := 10000

/-- `BASE_ASTEROIDS` from `GAME_SETTINGS`. -/
def BASE_ASTEROIDS : ℕ := 3

/-- `INITIAL_LIVES` from `GAME_SETTINGS`. -/
def INITIAL_LIVES : ℤ := 3

/-- An `Asteroid` as the game sees it: position, tier and velocity.  The
`id` field models JavaScript object identity (the source removes a
destroyed asteroid with `filter(a => a !== asteroid)`); fresh objects get
fresh ids.  The silhouette vertices are rendering-only and not carried. -/
structure Ast where
  id : ℕ
  x : ℚ
  y : ℚ
  size : Size
  vx : ℚ
  vy : ℚ
deriving DecidableEq, Repr

/-- A bullet as stored in `game.bullets`, with an identity tag for the
in-place `isDead` mutation done by `checkCollisions`. -/
structure GBullet where
  bid : ℕ
  x : ℚ
  y : ℚ
  radius : ℚ
  isDead : Bool
deriving DecidableEq, Repr

/-- Audio-manager cues triggered by the game, kept as an event log
(most recent first). -/
inductive SndEvt where
  | bang (sz : Size)
  | extraLife
  | waveEnd
  | beatStop
  | beatUpdate
  | beatStart
  | thrustStop
deriving DecidableEq, Repr

/-- The delayed actions the game schedules with `setTimeout`. -/
inductive TimerAct where
  /-- the game-over transition scheduled on the fatal hit
  (`checkCollisions`). -/
  | gameOverFire
  /-- the `createNewWave` call scheduled on wave clear
  (`handleAsteroidDestruction`). -/
  | waveCreate
  /-- the nested background-beat restart scheduled inside the wave timer. -/
  | beatStart
deriving DecidableEq, Repr

/-- The game state (`Game` fields of `game.js`).  `pending` is the queue of
scheduled `setTimeout` callbacks not yet fired; `gameOverTimer` is the one
cancellation handle the source declares (`this.gameOverTimer`).  `nextTimerId`
and `nextAstId` supply fresh identities. -/
structure GState where
  score : ℕ
  highScore : ℕ
  lives : ℤ
  wave : ℕ
  gameOver : Bool
  gameOverPending : Bool
  paused : Bool
  lastExtraLifeScore : ℕ
  initialAsteroidCount : ℕ
  ship : Ship
  asteroids : List Ast
  bullets : List GBullet
  pending : List (ℕ × TimerAct)
  gameOverTimer : Option ℕ
  nextTimerId : ℕ
  nextAstId : ℕ
  sounds : List SndEvt
deriving DecidableEq, Repr

/-- The environment of the embedding: canvas dimensions, plus the values
the source draws from `Math.random()` and the trigonometry evaluated on
them.  `childVel pv n` is the randomized split velocity the `Asteroid`
constructor derives from the parent velocity `pv` (its exact form over `ℝ`
is verified separately in the `Astro` namespace); `waveSpawn w i` is the
randomized perimeter position and toward-center velocity of the `i`-th
asteroid of wave `w` in `createNewWave`. -/
structure Cfg where
  width : ℚ
  height : ℚ
  childVel : ℚ × ℚ → ℕ → ℚ × ℚ
  waveSpawn : ℕ → ℕ → (ℚ × ℚ) × (ℚ × ℚ)

/-- Record one audio cue. -/
def GState.snd (g : GState) (e : SndEvt) : GState :=
  { g with sounds := e :: g.sounds }

/-- `setTimeout(cb, delay)`: append a pending timer and hand back its id.
The source discards the returned handle at every gameplay call site (it is
never assigned to `this.gameOverTimer`), so the id is returned but the
caller below ignores it, exactly as the source does. -/
def GState.schedule (g : GState) (a : TimerAct) : GState × ℕ :=
  ({ g with pending := g.pending ++ [(g.nextTimerId, a)],
            nextTimerId := g.nextTimerId + 1 }, g.nextTimerId)

/-- `Game.clearGameOverTimer()`: cancels the timer whose handle is held in
`this.gameOverTimer`, if any. -/
def GState.clearGameOverTimer (g : GState) : GState :=
  match g.gameOverTimer with
  | none => g
  | some tid =>
      { g with pending := g.pending.filter (fun t => t.1 ≠ tid),
               gameOverTimer := none }

/-- `Game.checkExtraLife()`: integer thresholds of `EXTRA_LIFE_SCORE`
crossed so far minus those already credited via the `lastExtraLifeScore`
watermark; awards that many lives and advances the watermark. -/
def GState.checkExtraLife (g : GState) : GState :=
  let extraLivesEarned : ℕ := g.score / EXTRA_LIFE_SCORE
  let newExtraLives : ℤ :=
    (extraLivesEarned : ℤ) - (g.lastExtraLifeScore / EXTRA_LIFE_SCORE : ℕ)
  if 0 < newExtraLives then
    { g with lives := g.lives + newExtraLives,
             lastExtraLifeScore := extraLivesEarned * EXTRA_LIFE_SCORE,
             sounds := SndEvt.extraLife :: g.sounds }
  else g

/-- The children pushed by `handleAsteroidDestruction` for a parent
asteroid: two of the next tier down at the parent's position with
constructor-randomized velocities, none for `small`. -/
def splitChildren (cfg : Cfg) (a : Ast) (freshId : ℕ) : List Ast :=
  match a.size with
  | .large =>
      [ { id := freshId, x := a.x, y := a.y, size := .medium,
          vx := (cfg.childVel (a.vx, a.vy) freshId).1,
          vy := (cfg.childVel (a.vx, a.vy) freshId).2 },
        { id := freshId + 1, x := a.x, y := a.y, size := .medium,
          vx := (cfg.childVel (a.vx, a.vy) (freshId + 1)).1,
          vy := (cfg.childVel (a.vx, a.vy) (freshId + 1)).2 } ]
  | .medium =>
      [ { id := freshId, x := a.x, y := a.y, size := .small,
          vx := (cfg.childVel (a.vx, a.vy) freshId).1,
          vy := (cfg.childVel (a.vx, a.vy) freshId).2 },
        { id := freshId + 1, x := a.x, y := a.y, size := .small,
          vx := (cfg.childVel (a.vx, a.vy) (freshId + 1)).1,
          vy := (cfg.childVel (a.vx, a.vy) (freshId + 1)).2 } ]
  | .small => []

/-- First half of `Game.handleAsteroidDestruction(asteroid)`, in source
order: play the bang cue (also during game over), add the tier score,
track the high score, check extra lives. -/
def handleScoring (g : GState) (a : Ast) : GState :=
  let g := g.snd (SndEvt.bang a.size)
  let g := { g with score := g.score + scoreOf a.size }
  let g := if g.highScore < g.score then { g with highScore := g.score } else g
  g.checkExtraLife

/-- Second half of `Game.handleAsteroidDestruction(asteroid)`, in source
order: push split children unless the game is over or pending over, remove
the destroyed asteroid by identity, update the beat interval, and on an
emptied field (when not over) advance the wave, play the wave-end cue and
schedule the delayed `createNewWave` (the `setTimeout` handle is
discarded). -/
def handleSplitAndWave (cfg : Cfg) (g : GState) (a : Ast) : GState :=
  let g :=
    if g.gameOverPending = false ∧ g.gameOver = false then
      { g with asteroids := g.asteroids ++ splitChildren cfg a g.nextAstId,
               nextAstId := g.nextAstId + 2 }
    else g
  let g := { g with asteroids := g.asteroids.filter (fun b => b.id ≠ a.id) }
  let g := g.snd SndEvt.beatUpdate
  if g.asteroids = [] ∧ g.gameOver = false ∧ g.gameOverPending = false then
    let g := { g with wave := g.wave + 1 }
    let g := g.snd SndEvt.beatStop
    let g := g.snd SndEvt.waveEnd
    (g.schedule TimerAct.waveCreate).1
  else g

/-- `Game.handleAsteroidDestruction(asteroid)`: the scoring half followed
by the split/wave half. -/
def handleAsteroidDestruction (cfg : Cfg) (g : GState) (a : Ast) : GState :=
  handleSplitAndWave cfg (handleScoring g a) a

/-- Mark the bullet with identity `bid` dead (`bullet.isDead = true`). -/
def markBulletDead (g : GState) (bid : ℕ) : GState :=
  { g with bullets :=
      g.bullets.map (fun b => if b.bid = bid then { b with isDead := true } else b) }

/-- The bullet half of `Game.checkCollisions`: one bullet scanned against
the asteroid list as it stood when its scan began (a JavaScript `forEach`
walks the array object captured at the call; `handleAsteroidDestruction`
replaces `this.asteroids` by a fresh filtered array, so removals and
pushed children do not alter the ongoing walk).  On overlap the bullet is
marked dead and the asteroid destroyed — the source never re-checks
`bullet.isDead`, so the walk continues over the remaining snapshot
elements. -/
def bulletScan (cfg : Cfg) (g : GState) (b : GBullet) : GState :=
  g.asteroids.foldl
    (fun g' a =>
      if checkCollision b.x b.y b.radius a.x a.y (radiusOf a.size) then
        handleAsteroidDestruction cfg (markBulletDead g' b.bid) a
      else g')
    g

/-- The body run by the ship half of `Game.checkCollisions` on each
overlapping asteroid: decrement lives, stop the thrust cue if thrusting,
and either (fatal, `lives <= 0`) enter pending game over, start the ship's
disintegration, set the ship's game-over flag, stop the beat and schedule
the game-over transition — the `setTimeout` handle is NOT stored in
`this.gameOverTimer` — or (non-fatal) just start disintegration; in both
branches the asteroid is then destroyed. -/
def shipHit (cfg : Cfg) (g : GState) (a : Ast) : GState :=
  let g := { g with lives := g.lives - 1 }
  let g := if g.ship.thrust then g.snd SndEvt.thrustStop else g
  if g.lives ≤ 0 then
    let g := { g with gameOverPending := true }
    let g := { g with ship := g.ship.startDisintegration }
    let g := { g with ship := { g.ship with gameOverFlag := true } }
    let g := g.snd SndEvt.beatStop
    let g := (g.schedule TimerAct.gameOverFire).1
    handleAsteroidDestruction cfg g a
  else
    let g := { g with ship := g.ship.startDisintegration }
    handleAsteroidDestruction cfg g a

/-- `Game.checkCollisions()`: every bullet is scanned against the
asteroids; then, if the ship is not invulnerable and the game is not over
— a guard evaluated once, before the scan — the ship is scanned against
the asteroid list as it stands after the bullet phase. -/
def checkCollisions (cfg : Cfg) (g : GState) : GState :=
  let g1 := g.bullets.foldl (fun gA b => bulletScan cfg gA b) g
  if g1.ship.isInvulnerable = false ∧ g1.gameOver = false then
    g1.asteroids.foldl
      (fun g' a =>
        if checkCollision g'.ship.x g'.ship.y g'.ship.radius a.x a.y (radiusOf a.size) then
          shipHit cfg g' a
        else g')
      g1
  else g1

/-- `Game.createNewWave()`: replace the asteroid field by
`BASE_ASTEROIDS + wave` fresh large asteroids at randomized perimeter
positions aimed loosely toward the center (randomness supplied by
`cfg.waveSpawn`), and record the wave's initial count. -/
def createNewWave (cfg : Cfg) (g : GState) : GState :=
  let n := BASE_ASTEROIDS + g.wave
  { g with
    asteroids := (List.range n).map (fun i =>
      { id := g.nextAstId + i,
        x := (cfg.waveSpawn g.wave i).1.1, y := (cfg.waveSpawn g.wave i).1.2,
        size := Size.large,
        vx := (cfg.waveSpawn g.wave i).2.1, vy := (cfg.waveSpawn g.wave i).2.2 }),
    initialAsteroidCount := n,
    nextAstId := g.nextAstId + n }

/-- `Game.reset()`: zero the score, restore lives/wave, clear the
game-over flags, run `clearGameOverTimer` (which cancels only the timer
whose handle is held in `this.gameOverTimer`), reset the watermark,
recreate the ship at screen center with its game-over flag cleared, empty
the entity lists and spawn the first wave. -/
def reset (cfg : Cfg) (g : GState) : GState :=
  let g := { g with score := 0, lives := INITIAL_LIVES,
                    gameOver := false, gameOverPending := false }
  let g := g.clearGameOverTimer
  let g := { g with paused := false, wave := 1, initialAsteroidCount := 0,
                    lastExtraLifeScore := 0 }
  let g := { g with ship := Ship.mk0 (cfg.width / 2) (cfg.height / 2) }
  let g := { g with asteroids := [], bullets := [] }
  createNewWave cfg g

/-- Fire the pending timer with id `tid`: remove it from the queue and run
its callback against the current state — the game-over callback sets
`gameOver` and clears `gameOverPending`, stopping the beat again; the
wave callback runs `createNewWave` and schedules the nested beat restart;
the beat callback restarts the beat unless the game is over or pending
over. -/
def fireTimer (cfg : Cfg) (g : GState) (tid : ℕ) : GState :=
  match g.pending.find? (fun t => t.1 = tid) with
  | none => g
  | some (_, act) =>
      let g := { g with pending := g.pending.filter (fun t => t.1 ≠ tid) }
      match act with
      | .gameOverFire =>
          let g := { g with gameOver := true, gameOverPending := false }
          g.snd SndEvt.beatStop
      | .waveCreate =>
          let g := createNewWave cfg g
          ((g.schedule TimerAct.beatStart).1)
      | .beatStart =>
          if g.gameOver = false ∧ g.gameOverPending = false then
            g.snd SndEvt.beatStart
          else g

/-! ## The audio voice pool (`audio.js`) -/

/-- One pooled playback slot (`{source, gainNode, isPlaying, startTime}`
in `audio.js`).  `vid` models the node's object identity within its pool;
`srcId` models which underlying `AudioBufferSourceNode` the slot currently
holds — `playSound` always installs a fresh one ("sources can only be
played once"). -/
structure Voice where
  vid : ℕ
  isPlaying : Bool
  startTime : ℚ
  srcId : ℕ
deriving DecidableEq, Repr

instance : Inhabited Voice := ⟨{ vid := 0, isPlaying := false, startTime := 0, srcId := 0 }⟩

/-- The first non-playing node, as found by `pool.find(n => !n.isPlaying)`. -/
def findFreeVoice : List Voice → Option Voice
  | [] => none
  | v :: rest => if v.isPlaying = false then some v else findFreeVoice rest

/-- `pool.reduce((oldest, current) => (!oldest || current.startTime <
oldest.startTime) ? current : oldest, null)`: the least-recently-started
node, keeping the earlier node on ties (the comparison is strict). -/
def reduceOldest : List Voice → Option Voice
  | [] => none
  | v :: rest =>
      some (rest.foldl (fun best cur =>
        if cur.startTime < best.startTime then cur else best) v)

/-- `AudioManager.getAvailableNode(pool)`: `null` on an empty pool, else
the first free node, else the least-recently-started node (whose source
the source code disconnects and recreates; the handle is overwritten again
by `playSound` before being started, which is where the embedding applies
the fresh id). -/
def getAvailableNode (pool : List Voice) : Option Voice :=
  if pool.isEmpty then none
  else
    match findFreeVoice pool with
    | some n => some n
    | none => reduceOldest pool

/-- `AudioManager.playSound(poolKey)` restricted to one pool: choose a
node via `getAvailableNode`, recreate its underlying source (`fresh`),
mark it playing and stamp the current time.  The chosen node is mutated in
place, which the embedding renders as updating the pool entry with the
matching identity. -/
def playSound (pool : List Voice) (now : ℚ) (fresh : ℕ) : List Voice :=
  match getAvailableNode pool with
  | none => pool
  | some n =>
      pool.map (fun v =>
        if v.vid = n.vid then
          { v with isPlaying := true, startTime := now, srcId := fresh }
        else v)

/-- `Asteroid.update(deltaTime, width, height)` from `asteroid.js`:
advance by velocity, then wrap each axis on the radius-inflated interval
`[-radius, bound+radius]` with two sequential `if`s. -/
def Ast.update (a : Ast) (dt w h : ℚ) : Ast :=
  let r := radiusOf a.size
  let nx := a.x + a.vx * dt
  let ny := a.y + a.vy * dt
  let x1 := if nx < -r then w + r else nx
  let x2 := if x1 > w + r then -r else x1
  let y1 := if ny < -r then h + r else ny
  let y2 := if y1 > h + r then -r else y1
  { a with x := x2, y := y2 }

/-- A concrete environment for concrete test states: an 800×600 canvas
with all random draws fixed to zero. -/
def cfg0 : Cfg :=
  { width := 800, height := 600,
    childVel := fun _ _ => (0, 0),
    waveSpawn := fun _ _ => ((0, 0), (0, 0)) }

/-- A concrete mid-game state used as the base of the concrete test
states below: wave 1 in progress, default high score, empty field. -/
def g0 : GState :=
  { score := 0, highScore := 7500, lives := 3, wave := 1,
    gameOver := false, gameOverPending := false, paused := false,
    lastExtraLifeScore := 0, initialAsteroidCount := 4,
    ship := Ship.mk0 400 300,
    asteroids := [], bullets := [],
    pending := [], gameOverTimer := none,
    nextTimerId := 0, nextAstId := 100, sounds := [] }

/-- A concrete large asteroid sitting at the origin. -/
def astL : Ast := { id := 0, x := 0, y := 0, size := Size.large, vx := 0, vy := 0 }

/-- A second concrete large asteroid, overlapping `astL`. -/
def astL1 : Ast := { id := 1, x := 1, y := 0, size := Size.large, vx := 0, vy := 0 }

/-- A bullet sitting exactly on the left edge, flying left. -/
def bulletEdge : Bullet :=
  { x := 0, y := 50, vx := -10, vy := 0, distanceTraveled := 0, isDead := false }

/-- The bullet `Ship.shoot` produces from a ship at (10, 50) facing left
(`cos = -1`, `sin = 0`): spawned at the nose `10 - 15 = -5`, off-screen. -/
def bulletNose : Bullet :=
  { x := -5, y := 50, vx := -500, vy := 0, distanceTraveled := 0, isDead := false }

/-- A live game bullet at the origin. -/
def bul0 : GBullet := { bid := 0, x := 0, y := 0, radius := 2, isDead := false }

/-- Failing input for the bullet double-match: one live bullet at the
origin overlapping two large asteroids, the ship kept invulnerable so only
the bullet half of `checkCollisions` acts. -/
def gC4 : GState :=
  { g0 with ship := { Ship.mk0 400 300 with isInvulnerable := true },
            bullets := [bul0], asteroids := [astL, astL1] }

/-- Failing input for the per-asteroid life decrement: the vulnerable ship
at the origin overlapping two large asteroids in the same tick. -/
def gC5 : GState :=
  { g0 with ship := Ship.mk0 0 0, asteroids := [astL, astL1] }

/-- Failing input for timer cancellation on reset: one life left and the
vulnerable ship overlapping an asteroid, so the next collision pass is the
fatal hit that schedules the game-over transition. -/
def gC2 : GState :=
  { g0 with lives := 1, ship := Ship.mk0 0 0, asteroids := [astL] }

end Asteroids

/-! ## The asteroid split constructor over `ℝ` (`asteroid.js`)

The branch of the `Asteroid` constructor taken when a parent `baseVelocity`
is supplied (a split): `speed = Math.hypot(bv.x, bv.y) * 1.5`,
`finalAngle = Math.atan2(bv.y, bv.x) + (Math.random()*2 - 1) * Math.PI/4`,
velocity `(cos(finalAngle)*speed, sin(finalAngle)*speed)`.  The random
draw `Math.random()*2 - 1 ∈ [-1, 1)` is the parameter `u`. -/

namespace Astro

/-- `Math.atan2(y, x)`, embedded as the argument of the complex number
`x + iy`. -/
noncomputable def atan2 (y x : ℝ) : ℝ := Complex.arg (Complex.mk x y)

/-- `Math.hypot(x, y)` of a velocity pair: its Euclidean magnitude. -/
noncomputable def speedOf (v : ℝ × ℝ) : ℝ := Real.sqrt (v.1 ^ 2 + v.2 ^ 2)

/-- The split-child velocity computed by the `Asteroid` constructor from
the parent velocity `v` and the random draw `u`. -/
noncomputable def childVel (v : ℝ × ℝ) (u : ℝ) : ℝ × ℝ :=
  let speed := speedOf v * 1.5
  let currentAngle := atan2 v.2 v.1
  let finalAngle := currentAngle + u * (Real.pi / 4)
  (Real.cos finalAngle * speed, Real.sin finalAngle * speed)

end Astro

namespace Asteroids

/-! ## Theorems -/

/-- Core behaviour of `checkExtraLife`: awards exactly the number of
thresholds reached but not yet credited past the watermark, and advances
the watermark to the highest threshold reached; a no-op when no new
threshold was crossed.  Stated against explicit values of the three
fields read, so it applies to record literals by unification. -/
lemma checkExtraLife_core (g : GState) (sc : ℕ) (lv : ℤ) (wm : ℕ)
    (hsc : g.score = sc) (hlv : g.lives = lv) (hwm : g.lastExtraLifeScore = wm) :
    (wm / EXTRA_LIFE_SCORE < sc / EXTRA_LIFE_SCORE →
      g.checkExtraLife.lives =
        lv + ((sc / EXTRA_LIFE_SCORE - wm / EXTRA_LIFE_SCORE : ℕ) : ℤ) ∧
      g.checkExtraLife.lastExtraLifeScore =
        (sc / EXTRA_LIFE_SCORE) * EXTRA_LIFE_SCORE) ∧
    (sc / EXTRA_LIFE_SCORE ≤ wm / EXTRA_LIFE_SCORE →
      g.checkExtraLife.lives = lv ∧
      g.checkExtraLife.lastExtraLifeScore = wm) := by
  subst hsc hlv hwm
  unfold GState.checkExtraLife
  set m := g.score / EXTRA_LIFE_SCORE with hm
  set k := g.lastExtraLifeScore / EXTRA_LIFE_SCORE with hk
  constructor
  · intro hlt
    have hpos : (0 : ℤ) < (m : ℤ) - (k : ℤ) := by
      omega
    rw [if_pos hpos]
    refine ⟨?_, rfl⟩
    simp only
    omega
  · intro hle
    have hneg : ¬ (0 : ℤ) < (m : ℤ) - (k : ℤ) := by
      omega
    rw [if_neg hneg]
    exact ⟨rfl, rfl⟩

/-- `checkExtraLife` touches only `lives`, `lastExtraLifeScore` and the
sound log. -/
lemma checkExtraLife_inv (g : GState) :
    g.checkExtraLife.score = g.score ∧
    g.checkExtraLife.highScore = g.highScore ∧
    g.checkExtraLife.gameOver = g.gameOver ∧
    g.checkExtraLife.gameOverPending = g.gameOverPending ∧
    g.checkExtraLife.asteroids = g.asteroids ∧
    g.checkExtraLife.pending = g.pending ∧
    g.checkExtraLife.wave = g.wave ∧
    g.checkExtraLife.nextAstId = g.nextAstId ∧
    g.checkExtraLife.bullets = g.bullets ∧
    g.checkExtraLife.ship = g.ship := by
  simp only [GState.checkExtraLife]
  split_ifs <;> simp

/-- The split/wave half of the destruction handler touches neither the
score fields nor the lives/watermark pair nor the game-over flags. -/
lemma handleSplitAndWave_inv (cfg : Cfg) (g : GState) (a : Ast) :
    (handleSplitAndWave cfg g a).lives = g.lives ∧
    (handleSplitAndWave cfg g a).lastExtraLifeScore = g.lastExtraLifeScore ∧
    (handleSplitAndWave cfg g a).score = g.score ∧
    (handleSplitAndWave cfg g a).highScore = g.highScore ∧
    (handleSplitAndWave cfg g a).gameOver = g.gameOver ∧
    (handleSplitAndWave cfg g a).gameOverPending = g.gameOverPending ∧
    (handleSplitAndWave cfg g a).ship = g.ship ∧
    (handleSplitAndWave cfg g a).bullets = g.bullets := by
  simp only [handleSplitAndWave, GState.snd, GState.schedule]
  split_ifs <;> simp

/-- The scoring half leaves the entity lists, flags, wave and timer queue
alone. -/
lemma handleScoring_inv (g : GState) (a : Ast) :
    (handleScoring g a).gameOver = g.gameOver ∧
    (handleScoring g a).gameOverPending = g.gameOverPending ∧
    (handleScoring g a).asteroids = g.asteroids ∧
    (handleScoring g a).pending = g.pending ∧
    (handleScoring g a).wave = g.wave ∧
    (handleScoring g a).nextAstId = g.nextAstId ∧
    (handleScoring g a).bullets = g.bullets ∧
    (handleScoring g a).ship = g.ship ∧
    (handleScoring g a).score = g.score + scoreOf a.size := by
  simp only [handleScoring, GState.snd]
  split_ifs with h <;>
    simp [checkExtraLife_inv]

/-- Lives and watermark after the scoring half, via `checkExtraLife_core`
applied at the score-incremented state. -/
lemma handleScoring_extra (g : GState) (a : Ast) :
    (g.lastExtraLifeScore / EXTRA_LIFE_SCORE
        < (g.score + scoreOf a.size) / EXTRA_LIFE_SCORE →
      (handleScoring g a).lives =
        g.lives + (((g.score + scoreOf a.size) / EXTRA_LIFE_SCORE
                    - g.lastExtraLifeScore / EXTRA_LIFE_SCORE : ℕ) : ℤ) ∧
      (handleScoring g a).lastExtraLifeScore =
        ((g.score + scoreOf a.size) / EXTRA_LIFE_SCORE) * EXTRA_LIFE_SCORE) ∧
    ((g.score + scoreOf a.size) / EXTRA_LIFE_SCORE
        ≤ g.lastExtraLifeScore / EXTRA_LIFE_SCORE →
      (handleScoring g a).lives = g.lives ∧
      (handleScoring g a).lastExtraLifeScore = g.lastExtraLifeScore) := by
  simp only [handleScoring, GState.snd]
  split_ifs with h
  · exact checkExtraLife_core _ (g.score + scoreOf a.size) g.lives
      g.lastExtraLifeScore rfl rfl rfl
  · exact checkExtraLife_core _ (g.score + scoreOf a.size) g.lives
      g.lastExtraLifeScore rfl rfl rfl

/-- The scoring half tracks the high score opportunistically: afterwards
it is the maximum of the old high score and the new score. -/
lemma handleScoring_highScore (g : GState) (a : Ast) :
    (handleScoring g a).highScore = max g.highScore (g.score + scoreOf a.size) := by
  simp only [handleScoring, GState.snd]
  split_ifs with h
  · rw [(checkExtraLife_inv _).2.1]
    exact (Nat.max_eq_right (Nat.le_of_lt h)).symm
  · rw [(checkExtraLife_inv _).2.1]
    simpa using (Nat.max_eq_left (Nat.le_of_not_lt h)).symm

/-- The scoring half records the bang cue. -/
lemma handleScoring_bang_mem (g : GState) (a : Ast) :
    SndEvt.bang a.size ∈ (handleScoring g a).sounds := by
  simp only [handleScoring, GState.snd, GState.checkExtraLife]
  split_ifs <;> simp

/-- With the game over or pending over, the split/wave half only removes
the destroyed asteroid and logs the beat update: no children, no wave
increment, no scheduled timer. -/
lemma handleSplitAndWave_over (cfg : Cfg) (g : GState) (a : Ast)
    (h : g.gameOverPending = true ∨ g.gameOver = true) :
    handleSplitAndWave cfg g a =
      { g with asteroids := g.asteroids.filter (fun b => b.id ≠ a.id),
               sounds := SndEvt.beatUpdate :: g.sounds } := by
  simp only [handleSplitAndWave, GState.snd, GState.schedule]
  have h1 : ¬ (g.gameOverPending = false ∧ g.gameOver = false) := by
    rcases h with h | h <;> simp [h]
  rw [if_neg h1]
  have h2 : ¬ ((g.asteroids.filter (fun b => b.id ≠ a.id)) = []
      ∧ g.gameOver = false ∧ g.gameOverPending = false) := by
    rcases h with h | h <;> simp [h]
  rw [if_neg h2]

/-- C1: one call of the asteroid-destruction handler raises the score by
the tier value; whenever that crosses one or more `EXTRA_LIFE_SCORE`
(10000) thresholds past the `lastExtraLifeScore` watermark, `lives` grows
by exactly the number of thresholds newly crossed and the watermark
advances to the highest threshold reached; when no threshold beyond the
watermark is crossed, lives and watermark are untouched, so a threshold
already below the watermark never awards a second life. -/
theorem extraLife_award_exact (cfg : Cfg) (g : GState) (a : Ast) :
    (g.lastExtraLifeScore / EXTRA_LIFE_SCORE
        < (g.score + scoreOf a.size) / EXTRA_LIFE_SCORE →
      (handleAsteroidDestruction cfg g a).lives =
        g.lives + (((g.score + scoreOf a.size) / EXTRA_LIFE_SCORE
                    - g.lastExtraLifeScore / EXTRA_LIFE_SCORE : ℕ) : ℤ) ∧
      (handleAsteroidDestruction cfg g a).lastExtraLifeScore =
        ((g.score + scoreOf a.size) / EXTRA_LIFE_SCORE) * EXTRA_LIFE_SCORE) ∧
    ((g.score + scoreOf a.size) / EXTRA_LIFE_SCORE
        ≤ g.lastExtraLifeScore / EXTRA_LIFE_SCORE →
      (handleAsteroidDestruction cfg g a).lives = g.lives ∧
      (handleAsteroidDestruction cfg g a).lastExtraLifeScore
        = g.lastExtraLifeScore) := by
  have hsw := handleSplitAndWave_inv cfg (handleScoring g a) a
  unfold handleAsteroidDestruction
  rw [hsw.1, hsw.2.1]
  exact handleScoring_extra g a

/-- C1 witness: destroying a small asteroid at score 9950 with watermark 0
crosses the 10000 threshold once, raising lives from 3 to 4 and the
watermark to 10000. -/
theorem extraLife_award_exact_witness :
    ({ g0 with score := 9950 } : GState).lastExtraLifeScore / EXTRA_LIFE_SCORE
      < (({ g0 with score := 9950 } : GState).score + scoreOf Size.small)
          / EXTRA_LIFE_SCORE ∧
    (handleAsteroidDestruction cfg0 { g0 with score := 9950 }
        { id := 0, x := 0, y := 0, size := Size.small, vx := 0, vy := 0 }).lives = 4 ∧
    (handleAsteroidDestruction cfg0 { g0 with score := 9950 }
        { id := 0, x := 0, y := 0, size := Size.small, vx := 0, vy := 0 }).lastExtraLifeScore
      = 10000 :=
  ⟨by decide,
   (extraLife_award_exact cfg0 { g0 with score := 9950 }
      { id := 0, x := 0, y := 0, size := Size.small, vx := 0, vy := 0 }).1 (by decide)⟩

/-- C10 (amended): destroying an asteroid while `gameOverPending` or
`gameOver` holds still adds the tier value to the score, still updates the
high score to the new score whenever the new score exceeds it (and only
then), and still triggers the destruction cue; but no child asteroids are
spawned (the field just loses the destroyed asteroid), the wave counter is
not incremented and no wave-creation timer is scheduled even if the field
becomes empty. -/
theorem gameOver_destruction_effects (cfg : Cfg) (g : GState) (a : Ast)
    (h : g.gameOverPending = true ∨ g.gameOver = true) :
    (handleAsteroidDestruction cfg g a).score = g.score + scoreOf a.size ∧
    (handleAsteroidDestruction cfg g a).highScore
      = max g.highScore (g.score + scoreOf a.size) ∧
    SndEvt.bang a.size ∈ (handleAsteroidDestruction cfg g a).sounds ∧
    (handleAsteroidDestruction cfg g a).asteroids
      = g.asteroids.filter (fun b => b.id ≠ a.id) ∧
    (handleAsteroidDestruction cfg g a).wave = g.wave ∧
    (handleAsteroidDestruction cfg g a).pending = g.pending := by
  have hsi := handleScoring_inv g a
  have hover : (handleScoring g a).gameOverPending = true
      ∨ (handleScoring g a).gameOver = true := by
    rcases h with h | h
    · exact Or.inl (hsi.2.1.trans h)
    · exact Or.inr (hsi.1.trans h)
  have heq := handleSplitAndWave_over cfg (handleScoring g a) a hover
  unfold handleAsteroidDestruction
  rw [heq]
  refine ⟨hsi.2.2.2.2.2.2.2.2, ?_, ?_, ?_, ?_, ?_⟩
  · exact handleScoring_highScore g a
  · exact List.mem_cons_of_mem _ (handleScoring_bang_mem g a)
  · rw [hsi.2.2.1]
  · exact hsi.2.2.2.2.1
  · exact hsi.2.2.2.1

/-- C10 witness: a large asteroid destroyed in a pending-game-over state
with score 0 and high score 7500 still scores 20, keeps the high score at
its maximum, logs the bang, removes only the destroyed asteroid, and
leaves wave and timer queue alone. -/
theorem gameOver_destruction_effects_witness :
    ({ g0 with gameOverPending := true, asteroids := [astL] } : GState).gameOverPending
        = true ∧
    ((handleAsteroidDestruction cfg0
        { g0 with gameOverPending := true, asteroids := [astL] } astL).score = 0 + scoreOf Size.large ∧
     (handleAsteroidDestruction cfg0
        { g0 with gameOverPending := true, asteroids := [astL] } astL).highScore
        = max 7500 (0 + scoreOf Size.large) ∧
     SndEvt.bang astL.size ∈ (handleAsteroidDestruction cfg0
        { g0 with gameOverPending := true, asteroids := [astL] } astL).sounds ∧
     (handleAsteroidDestruction cfg0
        { g0 with gameOverPending := true, asteroids := [astL] } astL).asteroids
        = [astL].filter (fun b => b.id ≠ astL.id) ∧
     (handleAsteroidDestruction cfg0
        { g0 with gameOverPending := true, asteroids := [astL] } astL).wave = 1 ∧
     (handleAsteroidDestruction cfg0
        { g0 with gameOverPending := true, asteroids := [astL] } astL).pending = []) :=
  ⟨rfl,
   gameOver_destruction_effects cfg0
     { g0 with gameOverPending := true, asteroids := [astL] } astL (Or.inl rfl)⟩

/-- C10 counterexample: in a pending-game-over state with score 0 and high
score 7500, destroying a large asteroid leaves the high score at 7500 —
the high score does not "increase by the asteroid's tier value" as the
claim states. -/
theorem gameOver_destruction_highScore_cex :
    ({ g0 with gameOverPending := true, asteroids := [astL] } : GState).gameOverPending
        = true ∧
    (handleAsteroidDestruction cfg0
        { g0 with gameOverPending := true, asteroids := [astL] } astL).score = 20 ∧
    (handleAsteroidDestruction cfg0
        { g0 with gameOverPending := true, asteroids := [astL] } astL).highScore = 7500 ∧
    (7500 : ℕ) ≠ 7500 + 20 := by
  decide

/-- Outside game over, the split/wave half appends exactly the split
children and removes the destroyed asteroid. -/
lemma handleSplitAndWave_asteroids (cfg : Cfg) (g : GState) (a : Ast)
    (hp : g.gameOverPending = false) (ho : g.gameOver = false) :
    (handleSplitAndWave cfg g a).asteroids
      = (g.asteroids ++ splitChildren cfg a g.nextAstId).filter
          (fun b => b.id ≠ a.id) := by
  simp only [handleSplitAndWave, GState.snd, GState.schedule, hp, ho]
  split_ifs <;> simp_all

end Asteroids

namespace Astro

/-- Magnitude of a polar pair: the Euclidean norm of
`(cos θ * s, sin θ * s)` is `s` for nonnegative `s`. -/
lemma speedOf_polar (θ s : ℝ) (hs : 0 ≤ s) :
    speedOf (Real.cos θ * s, Real.sin θ * s) = s := by
  unfold speedOf
  have hsq : (Real.cos θ * s) ^ 2 + (Real.sin θ * s) ^ 2 = s ^ 2 := by
    have h1 : Real.sin θ ^ 2 + Real.cos θ ^ 2 = 1 := Real.sin_sq_add_cos_sq θ
    nlinarith [h1]
  rw [hsq]
  exact Real.sqrt_sq hs

/-- The split constructor: child speed is exactly `1.5` times the parent
speed, and the child velocity is the polar vector at the parent's heading
perturbed by an angle of magnitude at most `π/4` (45 degrees). -/
lemma childVel_spec (v : ℝ × ℝ) (u : ℝ) (hu : |u| ≤ 1) :
    speedOf (childVel v u) = 1.5 * speedOf v ∧
    ∃ δ : ℝ, |δ| ≤ Real.pi / 4 ∧
      childVel v u
        = (Real.cos (atan2 v.2 v.1 + δ) * (speedOf v * 1.5),
           Real.sin (atan2 v.2 v.1 + δ) * (speedOf v * 1.5)) := by
  have hs : (0 : ℝ) ≤ speedOf v * 1.5 := by
    have := Real.sqrt_nonneg (v.1 ^ 2 + v.2 ^ 2)
    unfold speedOf
    nlinarith
  constructor
  · show speedOf
      (Real.cos (atan2 v.2 v.1 + u * (Real.pi / 4)) * (speedOf v * 1.5),
       Real.sin (atan2 v.2 v.1 + u * (Real.pi / 4)) * (speedOf v * 1.5))
      = 1.5 * speedOf v
    rw [speedOf_polar _ _ hs]
    ring
  · refine ⟨u * (Real.pi / 4), ?_, rfl⟩
    have hpi : (0 : ℝ) ≤ Real.pi / 4 := by
      have := Real.pi_pos
      linarith
    calc |u * (Real.pi / 4)| = |u| * |Real.pi / 4| := abs_mul u (Real.pi / 4)
      _ = |u| * (Real.pi / 4) := by rw [abs_of_nonneg hpi]
      _ ≤ 1 * (Real.pi / 4) := by
          exact mul_le_mul_of_nonneg_right hu hpi
      _ = Real.pi / 4 := one_mul _

end Astro

namespace Asteroids

/-- C6 (amended): for every asteroid destroyed while the game is neither
over nor pending over, the handler replaces it by exactly its split
children: two `medium` for a `large` parent, two `small` for a `medium`
parent, none for a `small` parent, each spawned at the parent's position;
and the constructor velocity of every child is the parent's speed times
1.5 at the parent's heading perturbed by at most 45 degrees, the random
perturbation being drawn per child.  (During game over or pending game
over no children are spawned — see the counterexample.) -/
theorem asteroid_split_rule (cfg : Cfg) (g : GState) (a : Ast)
    (hp : g.gameOverPending = false) (ho : g.gameOver = false)
    (hid : a.id < g.nextAstId) :
    ((handleAsteroidDestruction cfg g a).asteroids
        = g.asteroids.filter (fun b => b.id ≠ a.id)
          ++ splitChildren cfg a g.nextAstId) ∧
    ((splitChildren cfg a g.nextAstId).length
        = match a.size with
          | Size.large => 2
          | Size.medium => 2
          | Size.small => 0) ∧
    (∀ c ∈ splitChildren cfg a g.nextAstId,
        (a.size = Size.large → c.size = Size.medium) ∧
        (a.size = Size.medium → c.size = Size.small) ∧
        c.x = a.x ∧ c.y = a.y) ∧
    (∀ (v : ℝ × ℝ) (u : ℝ), |u| ≤ 1 →
        Astro.speedOf (Astro.childVel v u) = 1.5 * Astro.speedOf v ∧
        ∃ δ : ℝ, |δ| ≤ Real.pi / 4 ∧
          Astro.childVel v u
            = (Real.cos (Astro.atan2 v.2 v.1 + δ) * (Astro.speedOf v * 1.5),
               Real.sin (Astro.atan2 v.2 v.1 + δ) * (Astro.speedOf v * 1.5))) := by
  have hsi := handleScoring_inv g a
  refine ⟨?_, ?_, ?_, fun v u hu => Astro.childVel_spec v u hu⟩
  · unfold handleAsteroidDestruction
    rw [handleSplitAndWave_asteroids cfg (handleScoring g a) a
        (hsi.2.1.trans hp) (hsi.1.trans ho)]
    rw [hsi.2.2.1, hsi.2.2.2.2.2.1]
    rw [List.filter_append]
    have hkeep : (splitChildren cfg a g.nextAstId).filter (fun b => b.id ≠ a.id)
        = splitChildren cfg a g.nextAstId := by
      rw [List.filter_eq_self]
      intro c hc
      cases ha : a.size <;>
          simp only [splitChildren, ha, List.mem_cons, List.not_mem_nil,
            or_false] at hc <;>
          rcases hc with rfl | rfl <;> simp <;> omega
    rw [hkeep]
  · cases ha : a.size <;> simp [splitChildren, ha]
  · intro c hc
    cases ha : a.size <;>
        simp only [splitChildren, ha, List.mem_cons, List.not_mem_nil,
          or_false] at hc <;>
        rcases hc with rfl | rfl <;> simp [ha]

/-- C6 witness: destroying a large asteroid in normal play replaces it by
its two medium children at the parent position, and the constructor
velocity law holds for every parent velocity and draw. -/
theorem asteroid_split_rule_witness :
    ({ g0 with asteroids := [astL] } : GState).gameOverPending = false ∧
    ({ g0 with asteroids := [astL] } : GState).gameOver = false ∧
    astL.id < ({ g0 with asteroids := [astL] } : GState).nextAstId ∧
    (((handleAsteroidDestruction cfg0 { g0 with asteroids := [astL] } astL).asteroids
        = ({ g0 with asteroids := [astL] } : GState).asteroids.filter
            (fun b => b.id ≠ astL.id)
          ++ splitChildren cfg0 astL
              ({ g0 with asteroids := [astL] } : GState).nextAstId) ∧
     ((splitChildren cfg0 astL
          ({ g0 with asteroids := [astL] } : GState).nextAstId).length
        = match astL.size with
          | Size.large => 2
          | Size.medium => 2
          | Size.small => 0) ∧
     (∀ c ∈ splitChildren cfg0 astL
          ({ g0 with asteroids := [astL] } : GState).nextAstId,
        (astL.size = Size.large → c.size = Size.medium) ∧
        (astL.size = Size.medium → c.size = Size.small) ∧
        c.x = astL.x ∧ c.y = astL.y) ∧
     (∀ (v : ℝ × ℝ) (u : ℝ), |u| ≤ 1 →
        Astro.speedOf (Astro.childVel v u) = 1.5 * Astro.speedOf v ∧
        ∃ δ : ℝ, |δ| ≤ Real.pi / 4 ∧
          Astro.childVel v u
            = (Real.cos (Astro.atan2 v.2 v.1 + δ) * (Astro.speedOf v * 1.5),
               Real.sin (Astro.atan2 v.2 v.1 + δ) * (Astro.speedOf v * 1.5)))) :=
  ⟨rfl, rfl, by decide,
   asteroid_split_rule cfg0 { g0 with asteroids := [astL] } astL rfl rfl (by decide)⟩

/-- C6 counterexample: with `gameOverPending` set, destroying a large
asteroid yields no children at all — the field is left empty, not with two
medium children — so the unconditional split rule of the claim is false on
the code. -/
theorem asteroid_split_rule_cex :
    astL.size = Size.large ∧
    ({ g0 with gameOverPending := true, asteroids := [astL] } : GState).asteroids
      = [astL] ∧
    (handleAsteroidDestruction cfg0
        { g0 with gameOverPending := true, asteroids := [astL] } astL).asteroids
      = [] := by
  decide

/-- C3 (amended): every `Bullet.update` adds per axis exactly the
source's pre-wrap increment — the raw old coordinate `b.x` on a left/top
exit, `bound - b.x` on a right/bottom exit, `|new - old|` otherwise — and
always leaves the bullet inside `[0, width] × [0, height]`.  Hence, for a
bullet already inside the screen, `distanceTraveled` never decreases, the
increment at a screen-wrap equals the distance from the old position to
the exited edge, and the distance strictly increases whenever the bullet
moves except when the move wraps across an edge the bullet sits on exactly
(that increment is 0).  For a bullet whose position lies left of the
screen — which `Ship.shoot` produces when the nose extends past an edge —
an update that exits left adds the negative raw coordinate, so
`distanceTraveled` strictly decreases on that update.  `isDead` holds
after an update iff it already held or the accumulated distance has
reached `min(width, height) * BULLET_MAX_DISTANCE`, so the flag is set
exactly at the first crossing and never reverts. -/
theorem bullet_distance_travel (b : Bullet) (dt w h : ℚ)
    (hw : 0 ≤ w) (hh : 0 ≤ h) :
    ((b.update dt w h).distanceTraveled
        = b.distanceTraveled + (bulletAxis b.x (b.x + b.vx * dt) w).1
            + (bulletAxis b.y (b.y + b.vy * dt) h).1) ∧
    (b.x + b.vx * dt < 0 →
      (bulletAxis b.x (b.x + b.vx * dt) w).1 = b.x) ∧
    (b.x + b.vx * dt > w →
      (bulletAxis b.x (b.x + b.vx * dt) w).1 = w - b.x) ∧
    (0 ≤ b.x + b.vx * dt → b.x + b.vx * dt ≤ w →
      (bulletAxis b.x (b.x + b.vx * dt) w).1 = |b.x + b.vx * dt - b.x|) ∧
    (b.y + b.vy * dt < 0 →
      (bulletAxis b.y (b.y + b.vy * dt) h).1 = b.y) ∧
    (b.y + b.vy * dt > h →
      (bulletAxis b.y (b.y + b.vy * dt) h).1 = h - b.y) ∧
    (0 ≤ b.y + b.vy * dt → b.y + b.vy * dt ≤ h →
      (bulletAxis b.y (b.y + b.vy * dt) h).1 = |b.y + b.vy * dt - b.y|) ∧
    (0 ≤ (b.update dt w h).x ∧ (b.update dt w h).x ≤ w ∧
     0 ≤ (b.update dt w h).y ∧ (b.update dt w h).y ≤ h) ∧
    (0 ≤ b.x → b.x ≤ w → 0 ≤ b.y → b.y ≤ h →
      b.distanceTraveled ≤ (b.update dt w h).distanceTraveled) ∧
    (0 ≤ b.x → b.x ≤ w → 0 ≤ b.y → b.y ≤ h →
      ((b.x + b.vx * dt ≠ b.x
          ∧ ¬(b.x + b.vx * dt < 0 ∧ b.x = 0)
          ∧ ¬(b.x + b.vx * dt > w ∧ b.x = w)) ∨
       (b.y + b.vy * dt ≠ b.y
          ∧ ¬(b.y + b.vy * dt < 0 ∧ b.y = 0)
          ∧ ¬(b.y + b.vy * dt > h ∧ b.y = h))) →
      b.distanceTraveled < (b.update dt w h).distanceTraveled) ∧
    (b.x < 0 → b.x + b.vx * dt < 0 → b.y + b.vy * dt = b.y →
      0 ≤ b.y → b.y ≤ h →
      (b.update dt w h).distanceTraveled = b.distanceTraveled + b.x ∧
      (b.update dt w h).distanceTraveled < b.distanceTraveled) ∧
    ((b.update dt w h).isDead = true ↔
      (b.isDead = true
        ∨ min w h * BULLET_MAX_DISTANCE ≤ (b.update dt w h).distanceTraveled)) := by
  have axis_cases : ∀ prev next bound : ℚ, 0 ≤ bound →
      (next < 0 → (bulletAxis prev next bound).1 = prev) ∧
      (next > bound → (bulletAxis prev next bound).1 = bound - prev) ∧
      (0 ≤ next → next ≤ bound → (bulletAxis prev next bound).1 = |next - prev|) := by
    intro prev next bound hb
    refine ⟨?_, ?_, ?_⟩
    · intro hlt
      unfold bulletAxis
      rw [if_pos hlt]
    · intro hgt
      unfold bulletAxis
      rw [if_neg (by linarith), if_pos hgt]
    · intro hn0 hnb
      unfold bulletAxis
      rw [if_neg (by linarith), if_neg (by linarith)]
  have gain_nonneg : ∀ prev next bound : ℚ, 0 ≤ prev → prev ≤ bound →
      0 ≤ (bulletAxis prev next bound).1 := by
    intro prev next bound h0 hb
    unfold bulletAxis
    split_ifs
    · exact h0
    · show (0 : ℚ) ≤ bound - prev
      linarith
    · exact abs_nonneg _
  have pos_range : ∀ prev next bound : ℚ, 0 ≤ bound →
      0 ≤ (bulletAxis prev next bound).2 ∧ (bulletAxis prev next bound).2 ≤ bound := by
    intro prev next bound hb
    unfold bulletAxis
    split_ifs with h1 h2
    · exact ⟨hb, le_refl bound⟩
    · exact ⟨le_refl 0, hb⟩
    · exact ⟨le_of_not_lt h1, le_of_not_lt h2⟩
  have hax := axis_cases b.x (b.x + b.vx * dt) w hw
  have hay := axis_cases b.y (b.y + b.vy * dt) h hh
  refine ⟨rfl, hax.1, hax.2.1, hax.2.2, hay.1, hay.2.1, hay.2.2, ?_, ?_, ?_, ?_, ?_⟩
  · have hx := pos_range b.x (b.x + b.vx * dt) w hw
    have hy := pos_range b.y (b.y + b.vy * dt) h hh
    exact ⟨hx.1, hx.2, hy.1, hy.2⟩
  · intro hx0 hxw hy0 hyh
    have gx := gain_nonneg b.x (b.x + b.vx * dt) w hx0 hxw
    have gy := gain_nonneg b.y (b.y + b.vy * dt) h hy0 hyh
    show b.distanceTraveled ≤ b.distanceTraveled + _ + _
    linarith
  · intro hx0 hxw hy0 hyh hmv
    have gx := gain_nonneg b.x (b.x + b.vx * dt) w hx0 hxw
    have gy := gain_nonneg b.y (b.y + b.vy * dt) h hy0 hyh
    have strict : ∀ prev next bound : ℚ, 0 ≤ prev → prev ≤ bound →
        (next ≠ prev ∧ ¬(next < 0 ∧ prev = 0) ∧ ¬(next > bound ∧ prev = bound)) →
        0 < (bulletAxis prev next bound).1 := by
      intro prev next bound h0 hb hh2
      obtain ⟨hne, hlo, hhi⟩ := hh2
      unfold bulletAxis
      split_ifs with h1 h2
      · rcases lt_or_eq_of_le h0 with hc | hc
        · exact hc
        · exact absurd ⟨h1, hc.symm⟩ hlo
      · show (0 : ℚ) < bound - prev
        rcases lt_or_eq_of_le hb with hc | hc
        · linarith
        · exact absurd ⟨h2, hc⟩ hhi
      · exact abs_pos.mpr (sub_ne_zero.mpr hne)
    show b.distanceTraveled < b.distanceTraveled + _ + _
    rcases hmv with hx | hy
    · have := strict b.x (b.x + b.vx * dt) w hx0 hxw hx
      linarith
    · have := strict b.y (b.y + b.vy * dt) h hy0 hyh hy
      linarith
  · intro hneg hexit hstay hy0 hyh
    have hgx : (bulletAxis b.x (b.x + b.vx * dt) w).1 = b.x := hax.1 hexit
    have hgy : (bulletAxis b.y (b.y + b.vy * dt) h).1 = 0 := by
      rw [hay.2.2 (by rw [hstay]; exact hy0) (by rw [hstay]; exact hyh), hstay]
      simp
    have hdist : (b.update dt w h).distanceTraveled
        = b.distanceTraveled + (bulletAxis b.x (b.x + b.vx * dt) w).1
            + (bulletAxis b.y (b.y + b.vy * dt) h).1 := rfl
    rw [hdist, hgx, hgy]
    exact ⟨by ring, by linarith⟩
  · have hdead_eq : (b.update dt w h).isDead
        = (if min w h * BULLET_MAX_DISTANCE ≤ (b.update dt w h).distanceTraveled
           then true else b.isDead) := rfl
    rw [hdead_eq]
    split_ifs with hthr
    · simp [hthr]
    · simp [hthr]

/-- C3 witness: on a 100×100 screen the increment decomposition of
`bullet_distance_travel` holds for a concrete mid-screen bullet. -/
theorem bullet_distance_travel_witness :
    (0 : ℚ) ≤ 100 ∧ (0 : ℚ) ≤ 100 ∧
    (({ x := 5, y := 6, vx := 1, vy := 0, distanceTraveled := 0,
        isDead := false } : Bullet).update 1 100 100).distanceTraveled
      = ({ x := 5, y := 6, vx := 1, vy := 0, distanceTraveled := 0,
           isDead := false } : Bullet).distanceTraveled
        + (bulletAxis 5 (5 + 1 * 1) 100).1 + (bulletAxis 6 (6 + 0 * 1) 100).1 :=
  ⟨by decide, by decide,
   (bullet_distance_travel
      { x := 5, y := 6, vx := 1, vy := 0, distanceTraveled := 0, isDead := false }
      1 100 100 (by decide) (by decide)).1⟩

/-- C3 counterexample: two concrete refutations of the claim.  `bulletEdge`
moves (velocity −10, position changes by the wrap) yet `distanceTraveled`
does not strictly increase; and `bulletNose` — exactly the bullet
`Ship.shoot` returns for a ship at (10, 50) facing left, spawned
off-screen at x = −5 — has `distanceTraveled` strictly DECREASE on its
first update (the code adds the raw `prevX = -5`), so the claimed strict
increase (and even monotonicity) fails on bullets the game itself
produces. -/
theorem bullet_distance_strict_cex :
    bulletEdge.vx ≠ 0 ∧
    (bulletEdge.update 1 100 100).x ≠ bulletEdge.x ∧
    (bulletEdge.update 1 100 100).distanceTraveled
      = bulletEdge.distanceTraveled ∧
    ((Ship.mk0 10 50).shoot (-1) 0).1 = some bulletNose ∧
    bulletNose.x < 0 ∧
    (bulletNose.update 1 100 100).distanceTraveled
      < bulletNose.distanceTraveled := by
  refine ⟨by norm_num [bulletEdge], ?_, ?_, ?_, by norm_num [bulletNose], ?_⟩ <;>
    norm_num [bulletEdge, bulletNose, Bullet.update, bulletAxis, Ship.shoot,
      Ship.mk0, BULLET_SPEED, SHOOT_DELAY, BULLET_MAX_DISTANCE]

/-- C7 (amended): the ship's `wrapAroundScreen`, the bullet's inline wrap
and the game-level `wrapObject` all implement the same hard-edge policy on
`[0, bound]` (ignoring radius), but the asteroids' own `update` wraps on
the radius-inflated interval `[-radius, bound+radius]`, which differs from
the hard-edge transformation (e.g. at position −5, radius 40, bound 100
the asteroid keeps −5 while the hard-edge wrap yields 100): the two
policies are mixed across entity kinds, not uniform. -/
theorem wrap_policy_mixed :
    (∀ p bound : ℚ, shipWrapAxis p bound = wrapObjectAxis p bound) ∧
    (∀ (b : Bullet) (dt w h : ℚ),
       (b.update dt w h).x = wrapObjectAxis (b.x + b.vx * dt) w ∧
       (b.update dt w h).y = wrapObjectAxis (b.y + b.vy * dt) h) ∧
    (∀ (a : Ast) (dt w h : ℚ),
       (a.update dt w h).x
         = asteroidWrapAxis (a.x + a.vx * dt) (radiusOf a.size) w ∧
       (a.update dt w h).y
         = asteroidWrapAxis (a.y + a.vy * dt) (radiusOf a.size) h) ∧
    asteroidWrapAxis (-5) 40 100 ≠ wrapObjectAxis (-5) 100 := by
  refine ⟨fun p bound => rfl, ?_, fun a dt w h => ⟨rfl, rfl⟩, ?_⟩
  · intro b dt w h
    constructor <;>
    · show (bulletAxis _ _ _).2 = wrapObjectAxis _ _
      simp only [bulletAxis, wrapObjectAxis]
      split_ifs <;> first | rfl | linarith
  · norm_num [asteroidWrapAxis, wrapObjectAxis]

/-- C7 witness: the shared hard-edge wrap and the asteroid divergence at a
concrete input. -/
theorem wrap_policy_mixed_witness :
    shipWrapAxis 5 100 = wrapObjectAxis 5 100 ∧
    asteroidWrapAxis (-5) 40 100 ≠ wrapObjectAxis (-5) 100 :=
  ⟨wrap_policy_mixed.1 5 100, wrap_policy_mixed.2.2.2⟩

/-- C7 counterexample: neither single policy covers all entity kinds — a
small asteroid moved to −5 stays at −5 (not the hard-edge result 100),
while a bullet moved to −1 wraps to 100 (not the radius-inflated result
−1 for its radius 2): hard-edge fails for asteroids and radius-inflated
fails for bullets, so no one policy is applied uniformly. -/
theorem wrap_policy_uniform_cex :
    (({ id := 7, x := 0, y := 50, size := Size.small, vx := -5, vy := 0 } : Ast).update
        1 100 100).x = -5 ∧
    hardEdgeWrap (-5) 100 = 100 ∧
    (({ x := 0, y := 50, vx := -1, vy := 0, distanceTraveled := 0,
        isDead := false } : Bullet).update 1 100 100).x = 100 ∧
    inflatedWrap (-1) 2 100 = -1 ∧
    ((-5 : ℚ) ≠ 100) ∧ ((100 : ℚ) ≠ -1) := by
  refine ⟨?_, ?_, ?_, ?_, by norm_num, by norm_num⟩ <;>
    norm_num [Ast.update, Bullet.update, bulletAxis, radiusOf,
      hardEdgeWrap, inflatedWrap]

/-- C8: for every tick with nonnegative `dt`, `updateTimers` never
increases the shoot cooldown; `shoot()` yields no bullet (and changes
nothing) while the cooldown is positive, yields no bullet while the ship
is disintegrating or invisible, and a successful shot resets the cooldown
to `SHOOT_DELAY`. -/
theorem shoot_cooldown_law (s : Ship) (dt cosA sinA : ℚ) :
    (0 ≤ dt → (s.updateTimers dt).shootTimer ≤ s.shootTimer) ∧
    (0 < s.shootTimer →
      (s.shoot cosA sinA).1 = none ∧ (s.shoot cosA sinA).2 = s) ∧
    (s.isDisintegrating = true → (s.shoot cosA sinA).1 = none) ∧
    (s.visible = false → (s.shoot cosA sinA).1 = none) ∧
    (∀ blt : Bullet, (s.shoot cosA sinA).1 = some blt →
      (s.shoot cosA sinA).2.shootTimer = SHOOT_DELAY) := by
  refine ⟨?_, ?_, ?_, ?_, ?_⟩
  · intro hdt
    simp only [Ship.updateTimers]
    split_ifs <;> simp <;> linarith
  · intro hpos
    have hneg : ¬ (s.shootTimer ≤ 0 ∧ s.isDisintegrating = false ∧ s.visible = true) := by
      intro hcon
      linarith [hcon.1]
    simp only [Ship.shoot, if_neg hneg]
    simp
  · intro hd
    have hneg : ¬ (s.shootTimer ≤ 0 ∧ s.isDisintegrating = false ∧ s.visible = true) := by
      intro hcon
      rw [hd] at hcon
      exact absurd hcon.2.1 (by simp)
    simp only [Ship.shoot, if_neg hneg]
  · intro hv
    have hneg : ¬ (s.shootTimer ≤ 0 ∧ s.isDisintegrating = false ∧ s.visible = true) := by
      intro hcon
      rw [hv] at hcon
      exact absurd hcon.2.2 (by simp)
    simp only [Ship.shoot, if_neg hneg]
  · intro blt hsome
    simp only [Ship.shoot] at hsome ⊢
    split_ifs at hsome ⊢ with hc
    rfl

/-- `pool.find(n => !n.isPlaying)` finds a non-playing member whenever one
exists. -/
lemma findFreeVoice_spec (pool : List Voice)
    (hex : ∃ v ∈ pool, v.isPlaying = false) :
    ∃ n, findFreeVoice pool = some n ∧ n.isPlaying = false ∧ n ∈ pool := by
  induction pool with
  | nil => simp at hex
  | cons v rest ih =>
    by_cases hv : v.isPlaying = false
    · exact ⟨v, by simp [findFreeVoice, hv], hv, List.mem_cons_self v rest⟩
    · obtain ⟨u, hu, hup⟩ := hex
      rcases List.mem_cons.mp hu with rfl | hu2
      · exact absurd hup hv
      · obtain ⟨n, hn1, hn2, hn3⟩ := ih ⟨u, hu2, hup⟩
        exact ⟨n, by simp [findFreeVoice, hv, hn1], hn2, List.mem_cons_of_mem v hn3⟩

/-- `pool.find(n => !n.isPlaying)` yields nothing when every voice is
playing. -/
lemma findFreeVoice_none (pool : List Voice)
    (hall : ∀ v ∈ pool, v.isPlaying = true) :
    findFreeVoice pool = none := by
  induction pool with
  | nil => rfl
  | cons v rest ih =>
    have hv := hall v (List.mem_cons_self v rest)
    simp only [findFreeVoice, hv]
    simpa using ih (fun u hu => hall u (List.mem_cons_of_mem v hu))

/-- The `reduce` fold keeps a voice of minimal `startTime`. -/
lemma foldl_oldest (rest : List Voice) (best : Voice) :
    ((rest.foldl (fun b cur => if cur.startTime < b.startTime then cur else b) best)
        = best
      ∨ (rest.foldl (fun b cur => if cur.startTime < b.startTime then cur else b) best)
          ∈ rest) ∧
    (rest.foldl (fun b cur => if cur.startTime < b.startTime then cur else b)
        best).startTime ≤ best.startTime ∧
    (∀ u ∈ rest,
      (rest.foldl (fun b cur => if cur.startTime < b.startTime then cur else b)
          best).startTime ≤ u.startTime) := by
  induction rest generalizing best with
  | nil => simp
  | cons c cs ih =>
    simp only [List.foldl_cons]
    by_cases hc : c.startTime < best.startTime
    · rw [if_pos hc]
      obtain ⟨hmem, hle, hall⟩ := ih c
      refine ⟨?_, hle.trans (le_of_lt hc), ?_⟩
      · rcases hmem with h | h
        · exact Or.inr (by rw [h]; exact List.mem_cons_self c cs)
        · exact Or.inr (List.mem_cons_of_mem c h)
      · intro u hu
        rcases List.mem_cons.mp hu with rfl | hu2
        · exact hle
        · exact hall u hu2
    · rw [if_neg hc]
      push_neg at hc
      obtain ⟨hmem, hle, hall⟩ := ih best
      refine ⟨?_, hle, ?_⟩
      · rcases hmem with h | h
        · exact Or.inl h
        · exact Or.inr (List.mem_cons_of_mem c h)
      · intro u hu
        rcases List.mem_cons.mp hu with rfl | hu2
        · exact hle.trans hc
        · exact hall u hu2

/-- `playSound` never changes the number of voices in a pool. -/
lemma playSound_length (pool : List Voice) (now : ℚ) (fresh : ℕ) :
    (playSound pool now fresh).length = pool.length := by
  unfold playSound
  cases getAvailableNode pool <;> simp

/-- C9: `playSound(key)` selects a non-playing voice whenever one exists;
when every voice is playing it reclaims a least-recently-started voice and
reinstalls it playing, stamped with the current time and holding a freshly
recreated source handle; and the pool size is fixed — unchanged across any
sequence of `playSound` calls. -/
theorem soundPool_voice_law (pool : List Voice) (now : ℚ) (fresh : ℕ)
    (evs : List (ℚ × ℕ)) :
    ((∃ v ∈ pool, v.isPlaying = false) →
      ∃ n, getAvailableNode pool = some n ∧ n.isPlaying = false ∧ n ∈ pool) ∧
    (pool ≠ [] → (∀ v ∈ pool, v.isPlaying = true) →
      ∃ n, getAvailableNode pool = some n ∧ n ∈ pool ∧
        (∀ u ∈ pool, n.startTime ≤ u.startTime) ∧
        ({ n with isPlaying := true, startTime := now, srcId := fresh } : Voice)
          ∈ playSound pool now fresh) ∧
    ((evs.foldl (fun p e => playSound p e.1 e.2) pool).length = pool.length) := by
  refine ⟨?_, ?_, ?_⟩
  · intro hex
    obtain ⟨n, hn1, hn2, hn3⟩ := findFreeVoice_spec pool hex
    refine ⟨n, ?_, hn2, hn3⟩
    obtain ⟨u, hu, _⟩ := hex
    have hne : pool.isEmpty = false := by
      cases pool
      · simp at hu
      · rfl
    simp [getAvailableNode, hne, hn1]
  · intro hne hall
    obtain ⟨v, rest, rfl⟩ : ∃ v rest, pool = v :: rest := by
      cases pool
      · exact absurd rfl hne
      · exact ⟨_, _, rfl⟩
    obtain ⟨hmem, hle, hrest⟩ := foldl_oldest rest v
    set m := rest.foldl (fun b cur => if cur.startTime < b.startTime then cur else b) v
      with hmdef
    have hm_mem : m ∈ v :: rest := by
      rcases hmem with h | h
      · rw [h]; exact List.mem_cons_self v rest
      · exact List.mem_cons_of_mem v h
    have hmin : ∀ u ∈ v :: rest, m.startTime ≤ u.startTime := by
      intro u hu
      rcases List.mem_cons.mp hu with rfl | hu2
      · exact hle
      · exact hrest u hu2
    have hget : getAvailableNode (v :: rest) = some m := by
      simp [getAvailableNode, findFreeVoice_none _ hall, reduceOldest, hmdef]
    refine ⟨m, hget, hm_mem, hmin, ?_⟩
    unfold playSound
    rw [hget]
    have := List.mem_map_of_mem
      (fun u : Voice => if u.vid = m.vid then
        { u with isPlaying := true, startTime := now, srcId := fresh } else u) hm_mem
    simpa using this
  · induction evs generalizing pool with
    | nil => rfl
    | cons e es ih =>
      simp only [List.foldl_cons]
      rw [ih (playSound pool e.1 e.2), playSound_length]

/-- C9 witness: in a two-voice pool with both voices playing (started at
times 5 and 3), `playSound` reclaims a least-recently-started voice and
reinstalls it playing at time 7 with a fresh source handle 99. -/
theorem soundPool_voice_law_witness :
    ([{ vid := 0, isPlaying := true, startTime := 5, srcId := 10 },
      { vid := 1, isPlaying := true, startTime := 3, srcId := 11 }] : List Voice)
      ≠ [] ∧
    (∀ v ∈ ([{ vid := 0, isPlaying := true, startTime := 5, srcId := 10 },
             { vid := 1, isPlaying := true, startTime := 3, srcId := 11 }] : List Voice),
        v.isPlaying = true) ∧
    (∃ n, getAvailableNode
        [{ vid := 0, isPlaying := true, startTime := 5, srcId := 10 },
         { vid := 1, isPlaying := true, startTime := 3, srcId := 11 }] = some n ∧
      n ∈ ([{ vid := 0, isPlaying := true, startTime := 5, srcId := 10 },
            { vid := 1, isPlaying := true, startTime := 3, srcId := 11 }] : List Voice) ∧
      (∀ u ∈ ([{ vid := 0, isPlaying := true, startTime := 5, srcId := 10 },
               { vid := 1, isPlaying := true, startTime := 3, srcId := 11 }] : List Voice),
          n.startTime ≤ u.startTime) ∧
      ({ n with isPlaying := true, startTime := 7, srcId := 99 } : Voice)
        ∈ playSound
            [{ vid := 0, isPlaying := true, startTime := 5, srcId := 10 },
             { vid := 1, isPlaying := true, startTime := 3, srcId := 11 }] 7 99) :=
  ⟨by decide, by decide,
   (soundPool_voice_law
      [{ vid := 0, isPlaying := true, startTime := 5, srcId := 10 },
       { vid := 1, isPlaying := true, startTime := 3, srcId := 11 }] 7 99 []).2.1
     (by decide) (by decide)⟩

set_option maxHeartbeats 1600000 in
/-- C4: evaluation of `checkCollisions` at the failing input `gC4`.  The
scan marks the bullet dead at the first overlapping asteroid but — with no
guard re-checking `bullet.isDead` — keeps matching it, so the single
bullet destroys the second asteroid in the same tick as well: both tier
scores are added and neither original asteroid survives the pass. -/
theorem deadBullet_destroys_second_asteroid :
    gC4.bullets = [bul0] ∧ bul0.isDead = false ∧
    gC4.asteroids = [astL, astL1] ∧
    (checkCollisions cfg0 gC4).score
      = gC4.score + scoreOf astL.size + scoreOf astL1.size ∧
    (checkCollisions cfg0 gC4).bullets = [{ bul0 with isDead := true }] ∧
    ((checkCollisions cfg0 gC4).asteroids.filter
        (fun a => a.id = astL.id ∨ a.id = astL1.id)) = [] := by
  refine ⟨rfl, rfl, rfl, ?_, ?_, ?_⟩ <;>
    norm_num [checkCollisions, bulletScan, handleAsteroidDestruction,
      handleScoring, handleSplitAndWave, GState.checkExtraLife, GState.snd,
      GState.schedule, splitChildren, markBulletDead, checkCollision, gC4, g0,
      bul0, astL, astL1, cfg0, radiusOf, scoreOf, shipHit, Ship.mk0,
      EXTRA_LIFE_SCORE]

set_option maxHeartbeats 1600000 in
/-- C5: evaluation of `checkCollisions` at the failing input `gC5`.  The
invulnerability guard is evaluated once before the asteroid scan, so a
vulnerable ship overlapping two asteroids in one tick loses two lives in
that tick — one per overlapping asteroid — even though the first hit
already made the ship invulnerable. -/
theorem ship_overlap_double_decrement :
    gC5.ship.isInvulnerable = false ∧
    gC5.lives = 3 ∧
    (checkCollisions cfg0 gC5).lives = 1 ∧
    (checkCollisions cfg0 gC5).ship.isInvulnerable = true := by
  refine ⟨rfl, rfl, ?_, ?_⟩ <;>
    norm_num [checkCollisions, bulletScan, handleAsteroidDestruction,
      handleScoring, handleSplitAndWave, GState.checkExtraLife, GState.snd,
      GState.schedule, splitChildren, markBulletDead, checkCollision, gC5, g0,
      astL, astL1, cfg0, radiusOf, scoreOf, shipHit, Ship.mk0,
      Ship.startDisintegration, EXTRA_LIFE_SCORE, INVULNERABILITY_TIME]

set_option maxHeartbeats 1600000 in
/-- C2: evaluation at the failing input `gC2`.  The fatal collision
schedules the game-over `setTimeout` without storing its handle in
`gameOverTimer`; `reset()` restores score 0 / lives 3 / wave 1 but its
`clearGameOverTimer` finds no handle, so the pending callback survives the
reset and, when it fires, flips the freshly reset game into `gameOver`. -/
theorem reset_stale_gameOver_timer :
    gC2.lives = 1 ∧
    (checkCollisions cfg0 gC2).gameOverPending = true ∧
    (checkCollisions cfg0 gC2).pending = [(0, TimerAct.gameOverFire)] ∧
    (checkCollisions cfg0 gC2).gameOverTimer = none ∧
    (reset cfg0 (checkCollisions cfg0 gC2)).score = 0 ∧
    (reset cfg0 (checkCollisions cfg0 gC2)).lives = 3 ∧
    (reset cfg0 (checkCollisions cfg0 gC2)).wave = 1 ∧
    (reset cfg0 (checkCollisions cfg0 gC2)).gameOver = false ∧
    (reset cfg0 (checkCollisions cfg0 gC2)).pending = [(0, TimerAct.gameOverFire)] ∧
    (fireTimer cfg0 (reset cfg0 (checkCollisions cfg0 gC2)) 0).gameOver = true := by
  refine ⟨rfl, ?_, ?_, ?_, ?_, ?_, ?_, ?_, ?_, ?_⟩ <;>
    norm_num [checkCollisions, bulletScan, handleAsteroidDestruction,
      handleScoring, handleSplitAndWave, GState.checkExtraLife, GState.snd,
      GState.schedule, splitChildren, markBulletDead, checkCollision,
      GState.clearGameOverTimer, reset, createNewWave, fireTimer, gC2, g0,
      astL, cfg0, radiusOf, scoreOf, shipHit, Ship.mk0,
      Ship.startDisintegration, EXTRA_LIFE_SCORE, INITIAL_LIVES,
      BASE_ASTEROIDS, INVULNERABILITY_TIME]

/-- C8 witness: a ship mid-cooldown (0.2 s remaining) with `dt = 0.1`
does not increase its cooldown and shoots nothing. -/
theorem shoot_cooldown_law_witness :
    (0 : ℚ) ≤ 1 ∧
    (({ Ship.mk0 0 0 with shootTimer := 1 } : Ship).updateTimers 1).shootTimer
      ≤ ({ Ship.mk0 0 0 with shootTimer := 1 } : Ship).shootTimer ∧
    (0 : ℚ) < ({ Ship.mk0 0 0 with shootTimer := 1 } : Ship).shootTimer ∧
    (({ Ship.mk0 0 0 with shootTimer := 1 } : Ship).shoot 1 0).1 = none :=
  ⟨by decide,
   (shoot_cooldown_law { Ship.mk0 0 0 with shootTimer := 1 } 1 1 0).1 (by decide),
   by decide,
   ((shoot_cooldown_law { Ship.mk0 0 0 with shootTimer := 1 } 1 1 0).2.1 (by decide)).1⟩

end Asteroids
